import Mathlib

/-!
Verification of the block-salvage engine (src/src/block/block_slvg.c):
`__wt_block_salvage_start`, `__wt_block_salvage_next`,
`__wt_block_salvage_end`.

The embedding mirrors the C source.  External collaborators (file read,
verified block read, free-space marking) are parameters collected in `Env`;
the mutable `WT_BLOCK` scan state is the `Block` structure.  The scan loop
of `__wt_block_salvage_next` is written with explicit fuel (each iteration
advances the offset by at least one allocation unit when the allocation
size is positive, so `fileSize + 1` units of fuel always suffice); running
out of fuel yields the error outcome, which the theorems show unreachable
under their hypotheses.
-/

/-- Fixed size of the leading description sector of a block file
(WT_BLOCK_DESC_SECTOR).  Modelled from the spec: the constant lives in a
header outside the salvage source; its exact value (512 in WiredTiger) is
irrelevant to every claim, which only use it symbolically. -/
def WT_BLOCK_DESC_SECTOR : Nat := 512

/-- Candidate page header (prefix of WT_PAGE_DISK read at each probe):
declared size, checksum and log sequence number.  Untrusted until
validated. -/
structure Header where
  size : Nat
  cksum : Nat
  lsn : Nat
deriving DecidableEq

/-- Salvage-relevant scan state of a WT_BLOCK: the allocation unit, the
file size (block->fh->file_size), the scan cursor (block->slvg_off), the
LSN watermark (block->lsn), the consistency flag (the WT_BLOCK_OK flag)
and the accumulated in-memory free-space state.  The free list is
modelled from the spec: `__wt_block_free` / `__wt_block_discard` live
outside the salvage source; per the spec they mark a region free in the
store's in-memory accounting state and discard that state. -/
structure Block where
  allocsize : Nat
  fileSize : Nat
  slvgOff : Nat
  lsn : Nat
  blockOk : Bool
  freeList : List (Nat × Nat)
deriving DecidableEq

/-- External collaborators of the salvage core: `readHdr` is `__wt_read`
of one allocation unit at an offset (`none` is an I/O error), `blockRead`
tells whether the full verified read `__wt_block_read` at
(offset, size, cksum) succeeds (checksum + decompression), `freeOk` tells
whether `__wt_block_free` at (offset, length) succeeds, and `maxPageSize`
is the configured WT_BTREE_PAGE_SIZE_MAX. -/
structure Env where
  readHdr : Nat → Option Header
  blockRead : Nat → Nat → Nat → Bool
  freeOk : Nat → Nat → Bool
  maxPageSize : Nat

/-- Observable event of one scan iteration: a freed garbage allocation
unit (carrying the header's LSN when the header had passed structural
validation before the verified read failed, `none` when the header was
rejected structurally, i.e. without consulting the verified read), or a
valid page returned to the caller. -/
inductive Step where
  | freed (offset len : Nat) (plausibleLsn : Option Nat)
  | page (offset size cksum lsn : Nat)
deriving DecidableEq

/-- Outcome of one `__wt_block_salvage_next` call: end-of-file (`*eofp`
set), a returned page whose address cookie encodes (offset, size, cksum)
via `__wt_block_addr_to_buffer`, or a propagated infrastructure error
(a WT_RET path). -/
inductive NextOutcome where
  | eof
  | page (offset size cksum : Nat)
  | err
deriving DecidableEq

/-- Result of one probe of the scan loop: end-of-file reached, a failed
header read (I/O error), a garbage region (with the header's LSN when the
header had passed structural validation), or a fully verified page with
its header fields. -/
inductive ProbeResult where
  | eof
  | ioError
  | garbage (plausibleLsn : Option Nat)
  | valid (size cksum lsn : Nat)
deriving DecidableEq

/-- Classification of a single probe of the scan loop of
`__wt_block_salvage_next` (lines 89-135 of block_slvg.c): end-of-file
check, header read, structural size validation in source order
(size == 0, size % allocsize != 0, size > max page size,
offset + size > file size), then the full verified read.  `garbage none`
is a structural rejection (the goto-skip path taken before
`__wt_block_read` is ever called); `garbage (some lsn)` is a verified-read
failure after a structurally plausible header. -/
def probe (env : Env) (b : Block) (offset : Nat) : ProbeResult :=
  if b.fileSize ≤ offset then ProbeResult.eof
  else
    match env.readHdr offset with
    | none => ProbeResult.ioError
    | some dsk =>
      if dsk.size = 0 ∨ dsk.size % b.allocsize ≠ 0 ∨
          dsk.size > env.maxPageSize ∨ offset + dsk.size > b.fileSize then
        ProbeResult.garbage none
      else if env.blockRead offset dsk.size dsk.cksum then
        ProbeResult.valid dsk.size dsk.cksum dsk.lsn
      else
        ProbeResult.garbage (some dsk.lsn)

/-- Raise the block's LSN watermark from a structurally plausible
header's LSN (the source line: if (block->lsn < dsk->lsn)
block->lsn = dsk->lsn); `none` means the header never passed structural
validation, so the watermark is untouched. -/
def lsnUpd (b : Block) : Option Nat → Block
  | none => b
  | some l => { b with lsn := if b.lsn < l then l else b.lsn }

/-- Scan state after skipping a garbage unit at an offset: LSN possibly
raised, the unit marked free in the accounting state, and the cursor
advanced by exactly one allocation unit. -/
def skipBlock (b : Block) (offset : Nat) (pl : Option Nat) : Block :=
  { lsnUpd b pl with
    slvgOff := offset + b.allocsize
    freeList := (lsnUpd b pl).freeList ++ [(offset, b.allocsize)] }

/-- Scan loop of `__wt_block_salvage_next`, driven by `probe`.  On
garbage the block's LSN is first raised when the header was structurally
plausible (the source updates block->lsn before `__wt_block_read`), the
single allocation unit is freed (fallibly) and the cursor advances by
exactly one allocation unit; on a valid page the LSN is raised, the page
event is emitted and the cursor advances past the page.  Buffer
initialization and address-cookie encoding are modelled as infallible. -/
def salvageLoop (env : Env) : Nat → Block → Nat → List Step × NextOutcome × Block
  | 0, b, _ => ([], NextOutcome.err, b)
  | fuel + 1, b, offset =>
    match probe env b offset with
    | ProbeResult.eof => ([], NextOutcome.eof, b)
    | ProbeResult.ioError => ([], NextOutcome.err, b)
    | ProbeResult.garbage pl =>
      if env.freeOk offset b.allocsize then
        let r := salvageLoop env fuel (skipBlock b offset pl) (offset + b.allocsize)
        (Step.freed offset b.allocsize pl :: r.1, r.2.1, r.2.2)
      else ([], NextOutcome.err, lsnUpd b pl)
    | ProbeResult.valid size cksum lsn =>
      ([Step.page offset size cksum lsn], NextOutcome.page offset size cksum,
        { lsnUpd b (some lsn) with slvgOff := offset + size })

/-- One `__wt_block_salvage_next` call: scan from the current cursor with
always-sufficient fuel. -/
def __wt_block_salvage_next (env : Env) (b : Block) :
    List Step × NextOutcome × Block :=
  salvageLoop env (b.fileSize + 1) b b.slvgOff

/-- `__wt_block_salvage_start`: truncate the file to the description
sector plus the largest whole number of allocation units that fit (only
when the file extends past the description sector), then position the
scan cursor just past the description sector.  The description-sector
rewrite (`__wt_desc_init`) touches no modelled state; the free list is
deliberately left alone. -/
def __wt_block_salvage_start (b : Block) : Block :=
  let b1 :=
    if WT_BLOCK_DESC_SECTOR < b.fileSize then
      let len := (b.fileSize - WT_BLOCK_DESC_SECTOR) / b.allocsize * b.allocsize
        + WT_BLOCK_DESC_SECTOR
      if len ≠ b.fileSize then { b with fileSize := len } else b
    else b
  { b1 with slvgOff := WT_BLOCK_DESC_SECTOR }

/-- `__wt_block_salvage_end`: on failure clear the WT_BLOCK_OK flag and
discard the in-memory free-space state (`__wt_block_discard`); on success
do nothing. -/
def __wt_block_salvage_end (b : Block) (success : Bool) : Block :=
  if success then b
  else { b with blockOk := false, freeList := [] }

/-- Driver of a whole salvage pass: repeatedly call
`__wt_block_salvage_next` until end-of-file or a propagated error,
concatenating the observable events.  The boolean result records whether
the pass exhausted the file (reached end-of-file cleanly). -/
def salvageRun (env : Env) : Nat → Block → List Step × Block × Bool
  | 0, b => ([], b, false)
  | fuel + 1, b =>
    let r := __wt_block_salvage_next env b
    match r.2.1 with
    | NextOutcome.eof => (r.1, r.2.2, true)
    | NextOutcome.err => (r.1, r.2.2, false)
    | NextOutcome.page _ _ _ =>
      let rest := salvageRun env fuel r.2.2
      (r.1 ++ rest.1, rest.2.1, rest.2.2)

/-- A whole salvage pass with always-sufficient fuel (every returned page
advances the cursor by at least one allocation unit, so a file of size F
yields at most F pages before end-of-file). -/
def salvageRunFull (env : Env) (b : Block) : List Step × Block × Bool :=
  salvageRun env (b.fileSize + 1) b

/-- Start of the byte range classified by a step. -/
def stepStart : Step → Nat
  | Step.freed o _ _ => o
  | Step.page o _ _ _ => o

/-- End (exclusive) of the byte range classified by a step. -/
def stepEnd : Step → Nat
  | Step.freed o len _ => o + len
  | Step.page o s _ _ => o + s

/-- The steps exactly tile the half-open interval from lo to hi: each
step's range is nonempty, starts exactly where the previous one ended,
and the last one ends exactly at hi.  This encodes pairwise disjointness,
no gaps, no overlaps and exactly-once classification of every offset in
the interval. -/
def tilesB : Nat → Nat → List Step → Bool
  | lo, hi, [] => lo == hi
  | lo, hi, s :: rest =>
    (stepStart s == lo) && decide (lo < stepEnd s) && tilesB (stepEnd s) hi rest

/-- The LSN recorded by a step for a structurally plausible header (the
source raises block->lsn exactly at those probes). -/
def stepLsn : Step → Option Nat
  | Step.freed _ _ pl => pl
  | Step.page _ _ _ l => some l

/-- LSNs of all structurally plausible headers met during a scan, in scan
order. -/
def lsnCands (steps : List Step) : List Nat := steps.filterMap stepLsn

/-! ### Concrete scan states and collaborator environments used to
exercise the theorems on explicit inputs -/

/-- An all-zero candidate header: structurally invalid (size 0). -/
def hdr0 : Header := ⟨0, 0, 0⟩

/-- Collaborators that always deliver an all-zero (structurally invalid)
header, so every allocation unit is garbage; reads and frees never fail. -/
def envZero : Env := ⟨fun _ => some hdr0, fun _ _ _ => false, fun _ _ => true, 4096⟩

/-- Collaborators that always deliver a structurally plausible one-unit
header with LSN 99, whose full verified read nevertheless fails (for
example a checksum mismatch). -/
def envPlausibleFail : Env :=
  ⟨fun _ => some ⟨512, 7, 99⟩, fun _ _ _ => false, fun _ _ => true, 4096⟩

/-- Collaborators that always deliver a plausible one-unit header with
LSN 42 whose verified read succeeds. -/
def envValid : Env :=
  ⟨fun _ => some ⟨512, 9, 42⟩, fun _ _ _ => true, fun _ _ => true, 4096⟩

/-- Collaborators whose header read always fails with an I/O error. -/
def envNoRead : Env := ⟨fun _ => none, fun _ _ _ => false, fun _ _ => true, 4096⟩

/-- Headers of the spec's worked example: a valid page of size 1024 and
LSN 7 at offset 512, a plausible-but-corrupt unit (LSN 3) at offset 1536,
and a valid page of size 512 and LSN 12 at offset 2048. -/
def hdrExample : Nat → Header := fun o =>
  if o = 512 then ⟨1024, 111, 7⟩
  else if o = 1536 then ⟨512, 222, 3⟩
  else if o = 2048 then ⟨512, 333, 12⟩
  else ⟨0, 0, 0⟩

/-- Collaborators of the spec's worked example: the verified read
succeeds exactly at offsets 512 and 2048. -/
def envExample : Env :=
  ⟨fun o => some (hdrExample o), fun o _ _ => o == 512 || o == 2048,
   fun _ _ => true, 4096⟩

/-- A 2560-byte file positioned at the start of a salvage pass (the
spec's worked example layout). -/
def blockExample : Block := ⟨512, 2560, 512, 0, true, []⟩

/-- A 1024-byte file positioned at the start of a salvage pass, with LSN
watermark 0. -/
def blockSmall : Block := ⟨512, 1024, 512, 0, true, []⟩

/-- A 1024-byte file positioned at the start of a salvage pass, with
pre-scan LSN watermark 5. -/
def blockLsn5 : Block := ⟨512, 1024, 512, 5, true, []⟩

/-- A file whose size (300 bytes) does not reach past the description
sector. -/
def blockTiny : Block := ⟨512, 300, 77, 0, true, []⟩

/-- A scan state whose cursor already sits at the file size. -/
def blockDone : Block := ⟨512, 512, 512, 0, true, []⟩

/-- A 2000-byte file before Salvage Start (2000 is not sector plus a
multiple of the 512-byte allocation unit, so Start truncates it). -/
def blockUntrunc : Block := ⟨512, 2000, 0, 0, true, []⟩

/-! ### Basic frame lemmas -/

@[simp] theorem lsnUpd_allocsize (b : Block) (pl : Option Nat) :
    (lsnUpd b pl).allocsize = b.allocsize := by cases pl <;> rfl

@[simp] theorem lsnUpd_fileSize (b : Block) (pl : Option Nat) :
    (lsnUpd b pl).fileSize = b.fileSize := by cases pl <;> rfl

@[simp] theorem lsnUpd_slvgOff (b : Block) (pl : Option Nat) :
    (lsnUpd b pl).slvgOff = b.slvgOff := by cases pl <;> rfl

@[simp] theorem lsnUpd_blockOk (b : Block) (pl : Option Nat) :
    (lsnUpd b pl).blockOk = b.blockOk := by cases pl <;> rfl

@[simp] theorem skipBlock_allocsize (b : Block) (offset : Nat) (pl : Option Nat) :
    (skipBlock b offset pl).allocsize = b.allocsize := by
  simp [skipBlock]

@[simp] theorem skipBlock_fileSize (b : Block) (offset : Nat) (pl : Option Nat) :
    (skipBlock b offset pl).fileSize = b.fileSize := by
  simp [skipBlock]

@[simp] theorem skipBlock_slvgOff (b : Block) (offset : Nat) (pl : Option Nat) :
    (skipBlock b offset pl).slvgOff = offset + b.allocsize := by
  simp [skipBlock]

/-! ### Probe inversion lemmas -/

theorem probe_eof_of_le (env : Env) (b : Block) (offset : Nat)
    (h : b.fileSize ≤ offset) : probe env b offset = ProbeResult.eof := by
  simp [probe, h]

theorem probe_garbage_lt (env : Env) (b : Block) (offset : Nat) (pl : Option Nat)
    (h : probe env b offset = ProbeResult.garbage pl) : offset < b.fileSize := by
  rcases Nat.lt_or_ge offset b.fileSize with hlt | hge
  · exact hlt
  · rw [probe_eof_of_le env b offset hge] at h
    exact absurd h (by simp)

theorem probe_ioError_lt (env : Env) (b : Block) (offset : Nat)
    (h : probe env b offset = ProbeResult.ioError) : offset < b.fileSize := by
  rcases Nat.lt_or_ge offset b.fileSize with hlt | hge
  · exact hlt
  · rw [probe_eof_of_le env b offset hge] at h
    exact absurd h (by simp)

theorem probe_valid_inv (env : Env) (b : Block) (offset : Nat) (s c l : Nat)
    (h : probe env b offset = ProbeResult.valid s c l) :
    offset < b.fileSize ∧ s ≠ 0 ∧ s % b.allocsize = 0 ∧ offset + s ≤ b.fileSize := by
  unfold probe at h
  split at h
  · exact absurd h (by simp)
  · rename_i hlt
    split at h
    · exact absurd h (by simp)
    · rename_i dsk hdsk
      split at h
      · exact absurd h (by simp)
      · rename_i hcond
        push_neg at hcond
        obtain ⟨h0, hmod, hmax, hbound⟩ := hcond
        split at h
        · cases h
          exact ⟨Nat.lt_of_not_le hlt, h0, hmod, hbound⟩
        · exact absurd h (by simp)

/-! ### Loop unfolding lemmas -/

theorem salvageLoop_eof (env : Env) (fuel : Nat) (b : Block) (offset : Nat)
    (hp : probe env b offset = ProbeResult.eof) :
    salvageLoop env (fuel + 1) b offset = ([], NextOutcome.eof, b) := by
  simp [salvageLoop, hp]

theorem salvageLoop_ioError (env : Env) (fuel : Nat) (b : Block) (offset : Nat)
    (hp : probe env b offset = ProbeResult.ioError) :
    salvageLoop env (fuel + 1) b offset = ([], NextOutcome.err, b) := by
  simp [salvageLoop, hp]

theorem salvageLoop_garbage (env : Env) (fuel : Nat) (b : Block) (offset : Nat)
    (pl : Option Nat) (hp : probe env b offset = ProbeResult.garbage pl)
    (hf : env.freeOk offset b.allocsize = true) :
    salvageLoop env (fuel + 1) b offset =
      (Step.freed offset b.allocsize pl ::
        (salvageLoop env fuel (skipBlock b offset pl) (offset + b.allocsize)).1,
       (salvageLoop env fuel (skipBlock b offset pl) (offset + b.allocsize)).2.1,
       (salvageLoop env fuel (skipBlock b offset pl) (offset + b.allocsize)).2.2) := by
  simp [salvageLoop, hp, hf]

theorem salvageLoop_garbage_fail (env : Env) (fuel : Nat) (b : Block) (offset : Nat)
    (pl : Option Nat) (hp : probe env b offset = ProbeResult.garbage pl)
    (hf : env.freeOk offset b.allocsize = false) :
    salvageLoop env (fuel + 1) b offset = ([], NextOutcome.err, lsnUpd b pl) := by
  simp [salvageLoop, hp, hf]

theorem salvageLoop_valid (env : Env) (fuel : Nat) (b : Block) (offset : Nat)
    (s c l : Nat) (hp : probe env b offset = ProbeResult.valid s c l) :
    salvageLoop env (fuel + 1) b offset =
      ([Step.page offset s c l], NextOutcome.page offset s c,
       { lsnUpd b (some l) with slvgOff := offset + s }) := by
  simp [salvageLoop, hp]

/-! ### Salvage Start and end-of-file helpers -/

theorem start_fileSize (b : Block) :
    (__wt_block_salvage_start b).fileSize =
      if WT_BLOCK_DESC_SECTOR < b.fileSize then
        (b.fileSize - WT_BLOCK_DESC_SECTOR) / b.allocsize * b.allocsize +
          WT_BLOCK_DESC_SECTOR
      else b.fileSize := by
  by_cases h : WT_BLOCK_DESC_SECTOR < b.fileSize
  · rw [if_pos h]
    by_cases h2 : (b.fileSize - WT_BLOCK_DESC_SECTOR) / b.allocsize * b.allocsize +
        WT_BLOCK_DESC_SECTOR = b.fileSize
    · simp [__wt_block_salvage_start, h, h2]
    · simp [__wt_block_salvage_start, h, h2]
  · rw [if_neg h]
    simp [__wt_block_salvage_start, h]

theorem start_slvgOff (b : Block) :
    (__wt_block_salvage_start b).slvgOff = WT_BLOCK_DESC_SECTOR := rfl

theorem salvage_next_of_cursor_past (env : Env) (b : Block)
    (h : b.fileSize ≤ b.slvgOff) :
    __wt_block_salvage_next env b = ([], NextOutcome.eof, b) :=
  salvageLoop_eof env b.fileSize b b.slvgOff (probe_eof_of_le env b b.slvgOff h)

/-! ### Claim theorems: Salvage Start and Salvage End -/

/-- C3: after a successful Salvage Start on a file of size F with
allocation unit A, the file size is sector_size + A * floor((F -
sector_size) / A) whenever F > sector_size, and unchanged otherwise. -/
theorem salvage_start_truncation (b : Block) (hA : 0 < b.allocsize) :
    (WT_BLOCK_DESC_SECTOR < b.fileSize →
      (__wt_block_salvage_start b).fileSize =
        WT_BLOCK_DESC_SECTOR +
          b.allocsize * ((b.fileSize - WT_BLOCK_DESC_SECTOR) / b.allocsize)) ∧
    (b.fileSize ≤ WT_BLOCK_DESC_SECTOR →
      (__wt_block_salvage_start b).fileSize = b.fileSize) := by
  constructor
  · intro h
    rw [start_fileSize, if_pos h, Nat.add_comm, Nat.mul_comm]
  · intro h
    rw [start_fileSize, if_neg (Nat.not_lt.mpr h)]

/-- C3 witness: a 2000-byte file with 512-byte allocation units is
truncated to 512 + 512 * 2 = 1536 bytes. -/
theorem salvage_start_truncation_witness :
    (__wt_block_salvage_start blockUntrunc).fileSize =
      WT_BLOCK_DESC_SECTOR + blockUntrunc.allocsize *
        ((blockUntrunc.fileSize - WT_BLOCK_DESC_SECTOR) / blockUntrunc.allocsize) :=
  (salvage_start_truncation blockUntrunc (by decide)).1 (by decide)

/-- C8: Salvage End with success = false clears the consistency flag and
discards the accumulated in-memory free-space state; Salvage End with
success = true changes nothing. -/
theorem salvage_end_failure_invalidates (b : Block) :
    (__wt_block_salvage_end b false).blockOk = false ∧
    (__wt_block_salvage_end b false).freeList = [] ∧
    __wt_block_salvage_end b true = b :=
  ⟨rfl, rfl, rfl⟩

/-- C10: when the file does not extend past the description sector,
Salvage Start performs no truncation yet still places the cursor at the
sector size, so the cursor is at or past end-of-file and the first
Salvage Next call reports end-of-file — for every collaborator
environment, hence without reading any block. -/
theorem salvage_start_small_file (b : Block)
    (h : b.fileSize ≤ WT_BLOCK_DESC_SECTOR) :
    (__wt_block_salvage_start b).fileSize = b.fileSize ∧
    (__wt_block_salvage_start b).slvgOff = WT_BLOCK_DESC_SECTOR ∧
    (__wt_block_salvage_start b).fileSize ≤ (__wt_block_salvage_start b).slvgOff ∧
    ∀ env : Env, __wt_block_salvage_next env (__wt_block_salvage_start b) =
      ([], NextOutcome.eof, __wt_block_salvage_start b) := by
  have hfs : (__wt_block_salvage_start b).fileSize = b.fileSize := by
    rw [start_fileSize, if_neg (Nat.not_lt.mpr h)]
  have hle : (__wt_block_salvage_start b).fileSize ≤
      (__wt_block_salvage_start b).slvgOff := by
    rw [hfs, start_slvgOff]; exact h
  exact ⟨hfs, start_slvgOff b, hle,
    fun env => salvage_next_of_cursor_past env _ hle⟩

/-- C10 witness: a 300-byte file is not truncated, the cursor is set to
512, and the first Next call (under the all-zero-header collaborators)
reports end-of-file. -/
theorem salvage_start_small_file_witness :
    (__wt_block_salvage_start blockTiny).fileSize = blockTiny.fileSize ∧
    (__wt_block_salvage_start blockTiny).slvgOff = WT_BLOCK_DESC_SECTOR ∧
    __wt_block_salvage_next envZero (__wt_block_salvage_start blockTiny) =
      ([], NextOutcome.eof, __wt_block_salvage_start blockTiny) := by
  have h := salvage_start_small_file blockTiny (by decide)
  exact ⟨h.1, h.2.1, h.2.2.2 envZero⟩

/-! ### Claim theorems: single probes of Salvage Next -/

/-- C5 (amended): if the scan cursor is at or past the file size when
Salvage Next is called, the call reports end-of-file, performs no I/O
(the result is the same for every collaborator environment) and returns
without mutating the scan state.  The converse direction of the original
claim is false: Next can also report end-of-file when the cursor is
strictly below the file size at call time, after freeing trailing
garbage units (see the counterexample). -/
theorem salvage_next_eof_when_cursor_past (b : Block)
    (h : b.fileSize ≤ b.slvgOff) :
    ∀ env : Env, __wt_block_salvage_next env b = ([], NextOutcome.eof, b) :=
  fun env => salvage_next_of_cursor_past env b h

/-- C5 witness: a scan state whose cursor equals the 512-byte file size
reports end-of-file unchanged. -/
theorem salvage_next_eof_when_cursor_past_witness :
    __wt_block_salvage_next envZero blockDone = ([], NextOutcome.eof, blockDone) :=
  salvage_next_eof_when_cursor_past blockDone (by decide) envZero

/-- C5 counterexample: with the cursor at 512 and a 1024-byte file whose
remaining unit is garbage, Salvage Next reports end-of-file even though
the cursor was strictly below the file size at call time, and the call
does perform I/O (it frees a unit) and does mutate the scan state. -/
theorem salvage_next_eof_iff_cex :
    (__wt_block_salvage_next envZero blockSmall).2.1 = NextOutcome.eof ∧
    blockSmall.slvgOff < blockSmall.fileSize ∧
    (__wt_block_salvage_next envZero blockSmall).1 ≠ [] ∧
    (__wt_block_salvage_next envZero blockSmall).2.2.slvgOff ≠ blockSmall.slvgOff := by
  decide

/-- C6: a candidate header is classified as garbage without the full
verified read ever being consulted (the verified-read collaborator is
universally quantified, and the `none` marker records that the skip
happened before the read) exactly when the declared size is zero, or not
a multiple of the allocation size, or above the configured maximum page
size, or extends past the end of the file. -/
theorem probe_structural_reject_iff (env : Env) (br : Nat → Nat → Nat → Bool)
    (b : Block) (offset : Nat) (dsk : Header)
    (hoff : offset < b.fileSize)
    (hrd : env.readHdr offset = some dsk) :
    probe { env with blockRead := br } b offset = ProbeResult.garbage none ↔
      (dsk.size = 0 ∨ dsk.size % b.allocsize ≠ 0 ∨
        dsk.size > env.maxPageSize ∨ offset + dsk.size > b.fileSize) := by
  have hrd2 : Env.readHdr { env with blockRead := br } offset = some dsk := hrd
  have hnle : ¬ b.fileSize ≤ offset := Nat.not_le.mpr hoff
  constructor
  · intro h
    by_contra hc
    rw [probe, if_neg hnle, hrd2] at h
    dsimp only at h
    rw [if_neg hc] at h
    split at h <;> simp at h
  · intro hc
    rw [probe, if_neg hnle, hrd2]
    dsimp only
    rw [if_pos hc]

/-- C6 witness: an all-zero header at offset 512 of a 1024-byte file is
rejected structurally, for an arbitrary verified-read collaborator. -/
theorem probe_structural_reject_iff_witness :
    (probe { envZero with blockRead := fun _ _ _ => true } blockSmall 512 =
        ProbeResult.garbage none ↔
      (hdr0.size = 0 ∨ hdr0.size % blockSmall.allocsize ≠ 0 ∨
        hdr0.size > envZero.maxPageSize ∨
        512 + hdr0.size > blockSmall.fileSize)) ∧
    probe { envZero with blockRead := fun _ _ _ => true } blockSmall 512 =
      ProbeResult.garbage none :=
  ⟨probe_structural_reject_iff envZero (fun _ _ _ => true) blockSmall 512 hdr0
      (by decide) rfl,
   (probe_structural_reject_iff envZero (fun _ _ _ => true) blockSmall 512 hdr0
      (by decide) rfl).mpr (by decide)⟩

/-- C9: when the probe at the current cursor hits an infrastructure
failure — the header read fails, or the region is garbage but marking it
free fails — Salvage Next propagates the error (outcome err), classifies
nothing, and leaves the cursor exactly where it was, neither advanced nor
rewound. -/
theorem salvage_next_io_failure (env : Env) (fuel : Nat) (b : Block)
    (offset : Nat) (hoff : b.slvgOff = offset)
    (herr : probe env b offset = ProbeResult.ioError ∨
      ∃ pl, probe env b offset = ProbeResult.garbage pl ∧
        env.freeOk offset b.allocsize = false) :
    (salvageLoop env (fuel + 1) b offset).2.1 = NextOutcome.err ∧
    (salvageLoop env (fuel + 1) b offset).2.2.slvgOff = offset ∧
    (salvageLoop env (fuel + 1) b offset).1 = [] := by
  rcases herr with hp | ⟨pl, hp, hf⟩
  · rw [salvageLoop_ioError env fuel b offset hp]
    exact ⟨rfl, hoff, rfl⟩
  · rw [salvageLoop_garbage_fail env fuel b offset pl hp hf]
    exact ⟨rfl, by rw [lsnUpd_slvgOff]; exact hoff, rfl⟩

/-- C9 witness: under collaborators whose header read always fails, the
call at cursor 512 propagates the error with the cursor unmoved. -/
theorem salvage_next_io_failure_witness :
    (salvageLoop envNoRead (7 + 1) blockSmall 512).2.1 = NextOutcome.err ∧
    (salvageLoop envNoRead (7 + 1) blockSmall 512).2.2.slvgOff = 512 ∧
    (salvageLoop envNoRead (7 + 1) blockSmall 512).1 = [] :=
  salvage_next_io_failure envNoRead 7 blockSmall 512 rfl (Or.inl rfl)

/-- C4: every failed probe at an offset — structurally invalid header or
failed full verified read alike — frees exactly the one allocation unit
at that offset and advances the scan cursor by exactly one allocation
unit (to offset + allocation_size), regardless of the value in the
header's declared size field (the header `dsk` is arbitrary here), and
the scan continues from there. -/
theorem salvage_next_garbage_skip (env : Env) (fuel : Nat) (b : Block)
    (offset : Nat) (dsk : Header)
    (hoff : offset < b.fileSize)
    (hrd : env.readHdr offset = some dsk)
    (hfail : (dsk.size = 0 ∨ dsk.size % b.allocsize ≠ 0 ∨
        dsk.size > env.maxPageSize ∨ offset + dsk.size > b.fileSize) ∨
      env.blockRead offset dsk.size dsk.cksum = false)
    (hfree : env.freeOk offset b.allocsize = true) :
    ∃ pl, ∃ b2 : Block, b2.slvgOff = offset + b.allocsize ∧
      b2.allocsize = b.allocsize ∧ b2.fileSize = b.fileSize ∧
      b2.freeList = (lsnUpd b pl).freeList ++ [(offset, b.allocsize)] ∧
      salvageLoop env (fuel + 1) b offset =
        (Step.freed offset b.allocsize pl ::
          (salvageLoop env fuel b2 (offset + b.allocsize)).1,
         (salvageLoop env fuel b2 (offset + b.allocsize)).2.1,
         (salvageLoop env fuel b2 (offset + b.allocsize)).2.2) := by
  have hnle : ¬ b.fileSize ≤ offset := Nat.not_le.mpr hoff
  have hpl : ∃ pl, probe env b offset = ProbeResult.garbage pl := by
    by_cases hc : dsk.size = 0 ∨ dsk.size % b.allocsize ≠ 0 ∨
        dsk.size > env.maxPageSize ∨ offset + dsk.size > b.fileSize
    · refine ⟨none, ?_⟩
      rw [probe, if_neg hnle, hrd]
      dsimp only
      rw [if_pos hc]
    · rcases hfail with hc2 | hbr
      · exact absurd hc2 hc
      · refine ⟨some dsk.lsn, ?_⟩
        rw [probe, if_neg hnle, hrd]
        dsimp only
        rw [if_neg hc, hbr]
        simp
  obtain ⟨pl, hp⟩ := hpl
  refine ⟨pl, skipBlock b offset pl, skipBlock_slvgOff b offset pl,
    skipBlock_allocsize b offset pl, skipBlock_fileSize b offset pl,
    by simp [skipBlock], ?_⟩
  exact salvageLoop_garbage env fuel b offset pl hp hfree

/-- C4 witness: a header whose declared size field holds the garbage
value 0 at offset 512 costs exactly one 512-byte advance. -/
theorem salvage_next_garbage_skip_witness :
    ∃ pl, ∃ b2 : Block, b2.slvgOff = 512 + blockSmall.allocsize ∧
      b2.allocsize = blockSmall.allocsize ∧ b2.fileSize = blockSmall.fileSize ∧
      b2.freeList = (lsnUpd blockSmall pl).freeList ++ [(512, blockSmall.allocsize)] ∧
      salvageLoop envZero (3 + 1) blockSmall 512 =
        (Step.freed 512 blockSmall.allocsize pl ::
          (salvageLoop envZero 3 b2 (512 + blockSmall.allocsize)).1,
         (salvageLoop envZero 3 b2 (512 + blockSmall.allocsize)).2.1,
         (salvageLoop envZero 3 b2 (512 + blockSmall.allocsize)).2.2) :=
  salvage_next_garbage_skip envZero 3 blockSmall 512 hdr0 (by decide) rfl
    (Or.inl (by decide)) rfl

/-- C7: when the probe at an offset verifies a page (structurally
plausible header and successful full verified read), Salvage Next emits
the address triple (offset, declared_size, checksum) taken from that
page's header and advances the scan cursor to offset + declared_size. -/
theorem salvage_next_valid_page (env : Env) (fuel : Nat) (b : Block)
    (offset : Nat) (dsk : Header)
    (hoff : offset < b.fileSize)
    (hrd : env.readHdr offset = some dsk)
    (hok : ¬(dsk.size = 0 ∨ dsk.size % b.allocsize ≠ 0 ∨
        dsk.size > env.maxPageSize ∨ offset + dsk.size > b.fileSize))
    (hbr : env.blockRead offset dsk.size dsk.cksum = true) :
    salvageLoop env (fuel + 1) b offset =
      ([Step.page offset dsk.size dsk.cksum dsk.lsn],
       NextOutcome.page offset dsk.size dsk.cksum,
       { lsnUpd b (some dsk.lsn) with slvgOff := offset + dsk.size }) := by
  apply salvageLoop_valid
  rw [probe, if_neg (Nat.not_le.mpr hoff), hrd]
  dsimp only
  rw [if_neg hok, hbr]
  simp

/-- C7 witness: a verified 512-byte page at offset 512 with checksum 9 is
returned as the triple (512, 512, 9) and the cursor moves to 1024. -/
theorem salvage_next_valid_page_witness :
    salvageLoop envValid (3 + 1) blockSmall 512 =
      ([Step.page 512 512 9 42],
       NextOutcome.page 512 512 9,
       { lsnUpd blockSmall (some 42) with slvgOff := 512 + 512 }) := by
  have h := salvage_next_valid_page envValid 3 blockSmall 512 ⟨512, 9, 42⟩
    (by decide) rfl (by decide) rfl
  exact h

/-! ### Tiling machinery and the main scan-loop invariant -/

theorem probe_eof_inv (env : Env) (b : Block) (offset : Nat)
    (h : probe env b offset = ProbeResult.eof) : b.fileSize ≤ offset := by
  by_contra hc
  rw [probe, if_neg hc] at h
  split at h
  · simp at h
  · split at h
    · simp at h
    · split at h <;> simp at h

theorem tilesB_append (s1 : List Step) :
    ∀ lo mid hi s2, tilesB lo mid s1 = true → tilesB mid hi s2 = true →
      tilesB lo hi (s1 ++ s2) = true := by
  induction s1 with
  | nil =>
    intro lo mid hi s2 h1 h2
    simp only [tilesB, beq_iff_eq] at h1
    subst h1
    simpa using h2
  | cons s rest ih =>
    intro lo mid hi s2 h1 h2
    simp only [tilesB, Bool.and_eq_true, beq_iff_eq, decide_eq_true_eq] at h1
    obtain ⟨⟨hs, hlt⟩, hrest⟩ := h1
    simp only [List.cons_append, tilesB, Bool.and_eq_true, beq_iff_eq,
      decide_eq_true_eq]
    exact ⟨⟨hs, hlt⟩, ih _ _ _ _ hrest h2⟩

theorem loop_main (env : Env)
    (hr : ∀ o, (env.readHdr o).isSome = true)
    (hf : ∀ o l, env.freeOk o l = true) :
    ∀ fuel b offset m, b.slvgOff = offset → 0 < b.allocsize →
      b.fileSize = offset + m * b.allocsize → m < fuel →
      (salvageLoop env fuel b offset).2.1 ≠ NextOutcome.err ∧
      tilesB offset (salvageLoop env fuel b offset).2.2.slvgOff
        (salvageLoop env fuel b offset).1 = true ∧
      (salvageLoop env fuel b offset).2.2.allocsize = b.allocsize ∧
      (salvageLoop env fuel b offset).2.2.fileSize = b.fileSize ∧
      (∃ m2, b.fileSize = (salvageLoop env fuel b offset).2.2.slvgOff +
        m2 * b.allocsize) ∧
      ((salvageLoop env fuel b offset).2.1 = NextOutcome.eof →
        (salvageLoop env fuel b offset).2.2.slvgOff = b.fileSize) ∧
      (∀ o s c, (salvageLoop env fuel b offset).2.1 = NextOutcome.page o s c →
        offset + b.allocsize ≤ (salvageLoop env fuel b offset).2.2.slvgOff) := by
  intro fuel
  induction fuel with
  | zero => intro b offset m _ _ _ hm; omega
  | succ n ih =>
    intro b offset m hoff hA hfs hm
    cases hp : probe env b offset with
    | eof =>
      have hle : b.fileSize ≤ offset := probe_eof_inv env b offset hp
      have hz : m * b.allocsize = 0 := by omega
      have hfe : b.fileSize = offset := by omega
      rw [salvageLoop_eof env n b offset hp]
      refine ⟨by simp, ?_, rfl, rfl, ⟨m, by rw [hoff]; exact hfs⟩, ?_, ?_⟩
      · simp [tilesB, hoff]
      · intro _; rw [hoff, hfe]
      · intro o s c h; simp at h
    | ioError =>
      have : (env.readHdr offset).isSome = true := hr offset
      exfalso
      have hlt : offset < b.fileSize := probe_ioError_lt env b offset hp
      rw [probe, if_neg (Nat.not_le.mpr hlt)] at hp
      cases hh : env.readHdr offset with
      | none => rw [hh] at this; simp at this
      | some dsk =>
        rw [hh] at hp
        dsimp only at hp
        split at hp
        · simp at hp
        · split at hp <;> simp at hp
    | garbage pl =>
      have hfree := hf offset b.allocsize
      have hlt : offset < b.fileSize := probe_garbage_lt env b offset pl hp
      have hm1 : m ≠ 0 := by
        intro h0
        subst h0
        simp at hfs
        omega
      obtain ⟨m', rfl⟩ : ∃ m', m = m' + 1 := ⟨m - 1, by omega⟩
      have hfs2 : b.fileSize = offset + b.allocsize + m' * b.allocsize := by
        rw [Nat.succ_mul] at hfs; omega
      have ihh := ih (skipBlock b offset pl) (offset + b.allocsize) m'
        (skipBlock_slvgOff b offset pl)
        (by rw [skipBlock_allocsize]; exact hA)
        (by rw [skipBlock_fileSize, skipBlock_allocsize]; exact hfs2)
        (by omega)
      obtain ⟨ih1, ih2, ih3, ih4, ⟨m2, ih5⟩, ih6, ih7⟩ := ihh
      rw [skipBlock_allocsize] at ih3
      rw [skipBlock_fileSize] at ih4 ih6
      rw [skipBlock_fileSize, skipBlock_allocsize] at ih5
      rw [salvageLoop_garbage env n b offset pl hp hfree]
      dsimp only
      refine ⟨ih1, ?_, ih3, ih4, ⟨m2, ih5⟩, ih6, ?_⟩
      · simp only [tilesB, stepStart, stepEnd, Bool.and_eq_true, beq_iff_eq,
          decide_eq_true_eq]
        exact ⟨⟨trivial, by omega⟩, ih2⟩
      · intro o s c hpg
        have := ih7 o s c hpg
        omega
    | valid s c l =>
      obtain ⟨hlt, hs0, hsmod, hbound⟩ := probe_valid_inv env b offset s c l hp
      obtain ⟨q, hq⟩ := Nat.dvd_of_mod_eq_zero hsmod
      rw [Nat.mul_comm] at hq
      have hq0 : q ≠ 0 := by
        intro h0; subst h0; simp at hq; exact hs0 hq
      have hsA : b.allocsize ≤ s := by
        rw [hq]
        have : 1 * b.allocsize ≤ q * b.allocsize :=
          Nat.mul_le_mul_right b.allocsize (by omega)
        omega
      have hqm : q ≤ m := by
        have h1 : q * b.allocsize ≤ m * b.allocsize := by
          rw [← hq]; omega
        exact Nat.le_of_mul_le_mul_right h1 hA
      have hqA : q * b.allocsize ≤ m * b.allocsize :=
        Nat.mul_le_mul_right b.allocsize hqm
      rw [salvageLoop_valid env n b offset s c l hp]
      refine ⟨by simp, ?_, by simp, by simp, ?_, ?_, ?_⟩
      · simp [tilesB, stepStart, stepEnd]
        omega
      · refine ⟨m - q, ?_⟩
        have hsub : (m - q) * b.allocsize = m * b.allocsize - q * b.allocsize :=
          Nat.sub_mul m q b.allocsize
        simp only []
        rw [hq] at hbound ⊢
        omega
      · intro h; simp at h
      · intro o s2 c2 hpg
        simp only []
        omega

theorem if_lt_max (a b : Nat) : (if a < b then b else a) = Nat.max a b := by
  rcases Nat.lt_or_ge a b with h | h
  · rw [if_pos h]
    exact (Nat.max_eq_right (Nat.le_of_lt h)).symm
  · rw [if_neg (Nat.not_lt.mpr h)]
    exact (Nat.max_eq_left h).symm

theorem loop_mono (env : Env) :
    ∀ fuel b offset, b.slvgOff = offset →
      offset ≤ (salvageLoop env fuel b offset).2.2.slvgOff := by
  intro fuel
  induction fuel with
  | zero =>
    intro b offset hoff
    simp [salvageLoop]
    omega
  | succ n ih =>
    intro b offset hoff
    cases hp : probe env b offset with
    | eof =>
      rw [salvageLoop_eof env n b offset hp]
      dsimp only
      omega
    | ioError =>
      rw [salvageLoop_ioError env n b offset hp]
      dsimp only
      omega
    | garbage pl =>
      by_cases hfree : env.freeOk offset b.allocsize = true
      · rw [salvageLoop_garbage env n b offset pl hp hfree]
        dsimp only
        have := ih (skipBlock b offset pl) (offset + b.allocsize)
          (skipBlock_slvgOff b offset pl)
        omega
      · rw [salvageLoop_garbage_fail env n b offset pl hp (by simpa using hfree)]
        dsimp only
        rw [lsnUpd_slvgOff]
        omega
    | valid s c l =>
      rw [salvageLoop_valid env n b offset s c l hp]
      simp
  
theorem run_main (env : Env)
    (hr : ∀ o, (env.readHdr o).isSome = true)
    (hf : ∀ o l, env.freeOk o l = true) :
    ∀ fuel b m, 0 < b.allocsize →
      b.fileSize = b.slvgOff + m * b.allocsize → m < fuel →
      (salvageRun env fuel b).2.2 = true ∧
      tilesB b.slvgOff b.fileSize (salvageRun env fuel b).1 = true ∧
      (salvageRun env fuel b).2.1.slvgOff = b.fileSize := by
  intro fuel
  induction fuel with
  | zero => intro b m _ _ hm; omega
  | succ n ih =>
    intro b m hA hfs hm
    have hmfit : m < b.fileSize + 1 := by
      have : m * 1 ≤ m * b.allocsize := Nat.mul_le_mul_left m hA
      omega
    have hone :
        (__wt_block_salvage_next env b).2.1 ≠ NextOutcome.err ∧
        tilesB b.slvgOff (__wt_block_salvage_next env b).2.2.slvgOff
          (__wt_block_salvage_next env b).1 = true ∧
        (__wt_block_salvage_next env b).2.2.allocsize = b.allocsize ∧
        (__wt_block_salvage_next env b).2.2.fileSize = b.fileSize ∧
        (∃ m2, b.fileSize = (__wt_block_salvage_next env b).2.2.slvgOff +
          m2 * b.allocsize) ∧
        ((__wt_block_salvage_next env b).2.1 = NextOutcome.eof →
          (__wt_block_salvage_next env b).2.2.slvgOff = b.fileSize) ∧
        (∀ o s c, (__wt_block_salvage_next env b).2.1 = NextOutcome.page o s c →
          b.slvgOff + b.allocsize ≤ (__wt_block_salvage_next env b).2.2.slvgOff) :=
      loop_main env hr hf (b.fileSize + 1) b b.slvgOff m rfl hA hfs hmfit
    obtain ⟨h1, h2, h3, h4, ⟨m2, h5⟩, h6, h7⟩ := hone
    cases ho : (__wt_block_salvage_next env b).2.1 with
    | err => exact absurd ho h1
    | eof =>
      simp only [salvageRun]
      rw [ho]
      dsimp only
      have hfin := h6 ho
      rw [hfin] at h2
      exact ⟨rfl, h2, hfin⟩
    | page o s c =>
      have hadv := h7 o s c ho
      have hstep : m2 + 1 ≤ m := by
        have hmul : (m2 + 1) * b.allocsize ≤ m * b.allocsize := by
          rw [Nat.succ_mul]
          omega
        exact Nat.le_of_mul_le_mul_right hmul hA
      have ihh := ih (__wt_block_salvage_next env b).2.2 m2
        (by rw [h3]; exact hA)
        (by rw [h3, h4]; exact h5)
        (by omega)
      obtain ⟨ih1, ih2, ih3⟩ := ihh
      rw [h4] at ih2 ih3
      simp only [salvageRun]
      rw [ho]
      dsimp only
      refine ⟨ih1, ?_, ih3⟩
      exact tilesB_append (__wt_block_salvage_next env b).1 b.slvgOff
        (__wt_block_salvage_next env b).2.2.slvgOff b.fileSize
        (salvageRun env n (__wt_block_salvage_next env b).2.2).1 h2 ih2

theorem loop_lsn (env : Env) (hf : ∀ o l, env.freeOk o l = true) :
    ∀ fuel b offset,
      (salvageLoop env fuel b offset).2.2.lsn =
        List.foldl Nat.max b.lsn (lsnCands (salvageLoop env fuel b offset).1) := by
  intro fuel
  induction fuel with
  | zero => intro b offset; simp [salvageLoop, lsnCands]
  | succ n ih =>
    intro b offset
    cases hp : probe env b offset with
    | eof =>
      rw [salvageLoop_eof env n b offset hp]
      simp [lsnCands]
    | ioError =>
      rw [salvageLoop_ioError env n b offset hp]
      simp [lsnCands]
    | garbage pl =>
      rw [salvageLoop_garbage env n b offset pl hp (hf offset b.allocsize)]
      dsimp only
      rw [ih (skipBlock b offset pl) (offset + b.allocsize)]
      cases pl with
      | none =>
        simp [lsnCands, stepLsn, skipBlock, lsnUpd]
      | some l =>
        simp only [lsnCands, List.filterMap_cons, stepLsn, skipBlock, lsnUpd]
        rw [List.foldl_cons, if_lt_max]
    | valid s c l =>
      rw [salvageLoop_valid env n b offset s c l hp]
      simp only [lsnCands, List.filterMap_cons, stepLsn, List.filterMap_nil,
        lsnUpd, List.foldl_cons, List.foldl_nil]
      exact if_lt_max b.lsn l

theorem run_lsn (env : Env) (hf : ∀ o l, env.freeOk o l = true) :
    ∀ fuel b,
      (salvageRun env fuel b).2.1.lsn =
        List.foldl Nat.max b.lsn (lsnCands (salvageRun env fuel b).1) := by
  intro fuel
  induction fuel with
  | zero => intro b; simp [salvageRun, lsnCands]
  | succ n ih =>
    intro b
    have hone : (__wt_block_salvage_next env b).2.2.lsn =
        List.foldl Nat.max b.lsn (lsnCands (__wt_block_salvage_next env b).1) :=
      loop_lsn env hf (b.fileSize + 1) b b.slvgOff
    cases ho : (__wt_block_salvage_next env b).2.1 with
    | eof =>
      simp only [salvageRun]
      rw [ho]
      dsimp only
      exact hone
    | err =>
      simp only [salvageRun]
      rw [ho]
      dsimp only
      exact hone
    | page o s c =>
      simp only [salvageRun]
      rw [ho]
      dsimp only
      rw [ih (__wt_block_salvage_next env b).2.2, hone]
      simp only [lsnCands, List.filterMap_append, List.foldl_append]

/-! ### Claim theorems: whole salvage passes -/

/-- C1: starting from a post-Start scan state (cursor at the description
sector, file size equal to the sector plus a whole number of allocation
units) and in the absence of infrastructure failures, the salvage pass
reaches end-of-file and the byte ranges of its events — valid pages
returned and single allocation units freed as garbage — are consecutive,
pairwise disjoint, and exactly tile [sector_size, file_size) with no gaps
and no overlaps (`tilesB`), the final cursor sits exactly at the file
size, and the cursor of any single Next call never moves backwards, so
every offset below it is classified exactly once and never revisited. -/
theorem salvage_pass_tiles (env : Env) (b : Block) (k : Nat)
    (hr : ∀ o, (env.readHdr o).isSome = true)
    (hf : ∀ o l, env.freeOk o l = true)
    (hA : 0 < b.allocsize)
    (hoff : b.slvgOff = WT_BLOCK_DESC_SECTOR)
    (hsz : b.fileSize = WT_BLOCK_DESC_SECTOR + k * b.allocsize) :
    (salvageRunFull env b).2.2 = true ∧
    tilesB WT_BLOCK_DESC_SECTOR b.fileSize (salvageRunFull env b).1 = true ∧
    (salvageRunFull env b).2.1.slvgOff = b.fileSize ∧
    (∀ env2 b2, Block.slvgOff b2 ≤
      (__wt_block_salvage_next env2 b2).2.2.slvgOff) := by
  have hfs : b.fileSize = b.slvgOff + k * b.allocsize := by rw [hoff]; exact hsz
  have hk : k < b.fileSize + 1 := by
    have : k * 1 ≤ k * b.allocsize := Nat.mul_le_mul_left k hA
    omega
  have h := run_main env hr hf (b.fileSize + 1) b k hA hfs hk
  rw [hoff] at h
  exact ⟨h.1, h.2.1, h.2.2, fun env2 b2 =>
    loop_mono env2 (b2.fileSize + 1) b2 b2.slvgOff rfl⟩

/-- C1 witness: the spec's worked example — a 2560-byte file with a valid
1024-byte page at 512, a corrupt unit at 1536 and a valid 512-byte page
at 2048 — completes and its events exactly tile [512, 2560). -/
theorem salvage_pass_tiles_witness :
    (salvageRunFull envExample blockExample).2.2 = true ∧
    tilesB WT_BLOCK_DESC_SECTOR blockExample.fileSize
      (salvageRunFull envExample blockExample).1 = true ∧
    (salvageRunFull envExample blockExample).2.1.slvgOff =
      blockExample.fileSize ∧
    blockSmall.slvgOff ≤ (__wt_block_salvage_next envZero blockSmall).2.2.slvgOff := by
  have h := salvage_pass_tiles envExample blockExample 4
    (fun o => rfl) (fun o l => rfl) (by decide) rfl (by decide)
  exact ⟨h.1, h.2.1, h.2.2.1, h.2.2.2 envZero blockSmall⟩

/-- C2 (amended): after a salvage pass (no free-mark failures), the LSN
watermark equals the running maximum of its pre-scan value and the
sequence numbers of all probed candidate pages whose headers passed
structural validation — including pages whose subsequent full verified
read failed and which were therefore freed as garbage — and in
particular equals the pre-scan value when no header passed structural
validation.  (The original claim, that only pages classified as valid
contribute, is refuted by the counterexample below: the source raises
block->lsn before calling `__wt_block_read`.) -/
theorem salvage_pass_lsn_watermark (env : Env) (b : Block)
    (hf : ∀ o l, env.freeOk o l = true) :
    (salvageRunFull env b).2.1.lsn =
      List.foldl Nat.max b.lsn (lsnCands (salvageRunFull env b).1) :=
  run_lsn env hf (b.fileSize + 1) b

/-- C2 witness: a pass over one structurally plausible but corrupt unit
(LSN 99) starting from watermark 5 ends with watermark
max 5 99 = 99, as the amended claim computes. -/
theorem salvage_pass_lsn_watermark_witness :
    (salvageRunFull envPlausibleFail blockLsn5).2.1.lsn =
      List.foldl Nat.max blockLsn5.lsn
        (lsnCands (salvageRunFull envPlausibleFail blockLsn5).1) :=
  salvage_pass_lsn_watermark envPlausibleFail blockLsn5 (fun o l => rfl)

/-- C2 counterexample: a pass that exhausts all Next calls over a
1024-byte file whose single unit past the sector has a structurally
plausible header (LSN 99) but a failing verified read returns no valid
page (its only event is a freed garbage unit), yet the final
max_sequence_number is 99, not the pre-scan value 5 — refuting the
original claim that the watermark equals its pre-scan value when no
valid pages were found. -/
theorem salvage_pass_lsn_cex :
    (salvageRunFull envPlausibleFail blockLsn5).2.2 = true ∧
    (salvageRunFull envPlausibleFail blockLsn5).1 =
      [Step.freed 512 512 (some 99)] ∧
    (salvageRunFull envPlausibleFail blockLsn5).2.1.lsn = 99 ∧
    blockLsn5.lsn = 5 := by decide
